import Mathlib

set_option maxRecDepth 1000000

/-!
# Verification of the email-processing pipeline (`scripts/process_all_emails.py`)

A shallow embedding of the pipeline's core functions — fingerprint
generation, MIME header/body decoding, attachment assembly, the Gemini
classification retry loop with numeric coercion, the BigQuery existence
check, and the driver's per-message control flow — together with theorems
settling the specification claims.

Python machine behaviour is modelled as follows: byte strings are
`List Nat` (each element a byte value), Python `str` is Lean `String`,
`dict` is an association list with first-key-wins lookup, exceptions are
`Option`, and calls to external collaborators (codecs, the IMAP server,
the Gemini API, BigQuery, GCS) are oracle functions passed in as
parameters.
-/

namespace EmailProc

/-! ## Python string helpers

Implemented over the character list of a `String` with structural
recursion, so every one of them evaluates inside the kernel. Python
strings are sequences of code points, which is exactly `String.data`. -/

/-- Non-overlapping left-to-right replacement on character lists,
fuelled by the input length. -/
def pyReplaceAux (old new : List Char) : Nat → List Char → List Char
  | _, [] => []
  | 0, l => l
  | fuel + 1, c :: rest =>
    if old.isPrefixOf (c :: rest) then
      new ++ pyReplaceAux old new fuel ((c :: rest).drop old.length)
    else c :: pyReplaceAux old new fuel rest

/-- Python `s.replace(old, new)`. The source only replaces nonempty
substrings; an empty `old` is returned unchanged here. -/
def pyReplace (s old new : String) : String :=
  if old = "" then s
  else String.mk (pyReplaceAux old.data new.data s.data.length s.data)

/-- Substring search on character lists. -/
def listContainsSub (hay needle : List Char) : Bool :=
  match hay with
  | [] => needle.isEmpty
  | _ :: rest => needle.isPrefixOf hay || listContainsSub rest needle

/-- Python `needle in hay` for strings. -/
def pyContains (hay needle : String) : Bool :=
  listContainsSub hay.data needle.data

/-- Python `str.strip()`: whitespace removed from both ends. -/
def pyStrip (s : String) : String :=
  String.mk
    (((s.data.dropWhile Char.isWhitespace).reverse.dropWhile
        Char.isWhitespace).reverse)

/-- Python `s.lower()` (the source only lowercases ASCII charset names
and filename extensions). -/
def pyLower (s : String) : String := String.mk (s.data.map Char.toLower)

/-- Python `s.endswith(suffix)`. -/
def pyEndsWith (s suffix : String) : Bool := suffix.data.isSuffixOf s.data

/-- Python `s.startswith(p)`. -/
def pyStartsWith (s p : String) : Bool := p.data.isPrefixOf s.data

/-- Python `s[:n]` (slicing by code points). -/
def pyTake (s : String) (n : Nat) : String := String.mk (s.data.take n)

/-- Python `s[n:]`. -/
def pyDrop (s : String) (n : Nat) : String := String.mk (s.data.drop n)

/-- Python `sep.join(xs)`. -/
def pyJoin (sep : String) : List String → String
  | [] => ""
  | [x] => x
  | x :: y :: xs => x ++ sep ++ pyJoin sep (y :: xs)

/-! ## SHA-256 over `Nat` (modelling Python's `hashlib.sha256`)

Words are natural numbers reduced modulo `2^32`; the message is a list of
byte values. This follows FIPS 180-4, which is the contract of
`hashlib.sha256`. -/

def w32 (x : Nat) : Nat := x % 4294967296

def wadd (a b : Nat) : Nat := w32 (a + b)

def wxor (a b : Nat) : Nat := Nat.xor (w32 a) (w32 b)

def wand (a b : Nat) : Nat := Nat.land (w32 a) (w32 b)

def wnot (a : Nat) : Nat := 4294967295 - w32 a

def rotr (n x : Nat) : Nat :=
  w32 ((w32 x) / 2 ^ n + (w32 x) % 2 ^ n * 2 ^ (32 - n))

def shr (n x : Nat) : Nat := (w32 x) / 2 ^ n

def bigSigma0 (x : Nat) : Nat := wxor (rotr 2 x) (wxor (rotr 13 x) (rotr 22 x))

def bigSigma1 (x : Nat) : Nat := wxor (rotr 6 x) (wxor (rotr 11 x) (rotr 25 x))

def smallSigma0 (x : Nat) : Nat := wxor (rotr 7 x) (wxor (rotr 18 x) (shr 3 x))

def smallSigma1 (x : Nat) : Nat := wxor (rotr 17 x) (wxor (rotr 19 x) (shr 10 x))

def chF (x y z : Nat) : Nat := wxor (wand x y) (wand (wnot x) z)

def majF (x y z : Nat) : Nat := wxor (wand x y) (wxor (wand x z) (wand y z))

def sha256K : List Nat :=
  [1116352408, 1899447441, 3049323471, 3921009573,
   961987163, 1508970993, 2453635748, 2870763221,
   3624381080, 310598401, 607225278, 1426881987,
   1925078388, 2162078206, 2614888103, 3248222580,
   3835390401, 4022224774, 264347078, 604807628,
   770255983, 1249150122, 1555081692, 1996064986,
   2554220882, 2821834349, 2952996808, 3210313671,
   3336571891, 3584528711, 113926993, 338241895,
   666307205, 773529912, 1294757372, 1396182291,
   1695183700, 1986661051, 2177026350, 2456956037,
   2730485921, 2820302411, 3259730800, 3345764771,
   3516065817, 3600352804, 4094571909, 275423344,
   430227734, 506948616, 659060556, 883997877,
   958139571, 1322822218, 1537002063, 1747873779,
   1955562222, 2024104815, 2227730452, 2361852424,
   2428436474, 2756734187, 3204031479, 3329325298]

/-- The SHA-256 working state: eight 32-bit words. -/
structure Sha256State where
  a : Nat
  b : Nat
  c : Nat
  d : Nat
  e : Nat
  f : Nat
  g : Nat
  h : Nat
deriving Repr

def sha256Init : Sha256State :=
  ⟨0x6a09e667, 0xbb67ae85, 0x3c6ef372, 0xa54ff53a,
   0x510e527f, 0x9b05688c, 0x1f83d9ab, 0x5be0cd19⟩

/-- Expand a 16-word block to the 64-word message schedule. -/
def sha256Schedule (block : List Nat) : Nat → List Nat
  | 0 => block
  | n + 1 =>
    let prev := sha256Schedule block n
    let get := fun i => prev.getD i 0
    prev ++ [wadd (wadd (smallSigma1 (get (n + 14))) (get (n + 9)))
                  (wadd (smallSigma0 (get (n + 1))) (get n))]

/-- One round of the SHA-256 compression function. -/
def sha256Round (st : Sha256State) (k wrd : Nat) : Sha256State :=
  let t1 := wadd (wadd st.h (bigSigma1 st.e))
                 (wadd (chF st.e st.f st.g) (wadd k wrd))
  let t2 := wadd (bigSigma0 st.a) (majF st.a st.b st.c)
  ⟨wadd t1 t2, st.a, st.b, st.c, wadd st.d t1, st.e, st.f, st.g⟩

/-- Compress one 512-bit block into the running state. -/
def sha256Compress (st : Sha256State) (block : List Nat) : Sha256State :=
  let sched := sha256Schedule block 48
  let fin := (List.zip sha256K sched).foldl
    (fun s kw => sha256Round s kw.1 kw.2) st
  ⟨wadd st.a fin.a, wadd st.b fin.b, wadd st.c fin.c, wadd st.d fin.d,
   wadd st.e fin.e, wadd st.f fin.f, wadd st.g fin.g, wadd st.h fin.h⟩

/-- Split bytes into 4-byte big-endian words. -/
def bytesToWords : List Nat → List Nat
  | b0 :: b1 :: b2 :: b3 :: rest =>
    ((b0 % 256) * 16777216 + (b1 % 256) * 65536 + (b2 % 256) * 256 + b3 % 256)
      :: bytesToWords rest
  | _ => []

/-- Split a byte list into 64-byte chunks (the input length is a multiple
of 64 after padding); fuel-driven so that it reduces in the kernel. -/
def chunk64Aux : Nat → List Nat → List (List Nat)
  | 0, _ => []
  | _ + 1, [] => []
  | fuel + 1, bs => bs.take 64 :: chunk64Aux fuel (bs.drop 64)

def chunk64 (bs : List Nat) : List (List Nat) := chunk64Aux bs.length bs

/-- SHA-256 padding: append `0x80`, zero bytes to 56 mod 64, then the
64-bit big-endian bit length. -/
def sha256Pad (msg : List Nat) : List Nat :=
  let len := msg.length
  let zeroCount := (55 + 64 - len % 64) % 64
  let bitLen := len * 8
  msg ++ [0x80] ++ List.replicate zeroCount 0 ++
    [bitLen / 2 ^ 56 % 256, bitLen / 2 ^ 48 % 256, bitLen / 2 ^ 40 % 256,
     bitLen / 2 ^ 32 % 256, bitLen / 2 ^ 24 % 256, bitLen / 2 ^ 16 % 256,
     bitLen / 2 ^ 8 % 256, bitLen % 256]

/-- The eight digest words of a byte message. -/
def sha256Words (msg : List Nat) : Sha256State :=
  ((chunk64 (sha256Pad msg)).map bytesToWords).foldl sha256Compress sha256Init

def hexTable : List Char := ("0123456789abcdef" : String).data

def hexDigit (n : Nat) : Char := hexTable.getD (n % 16) '0'

/-- A 32-bit word as exactly eight lowercase hex characters. -/
def wordToHex8 (x : Nat) : List Char :=
  [hexDigit (x / 2 ^ 28), hexDigit (x / 2 ^ 24), hexDigit (x / 2 ^ 20),
   hexDigit (x / 2 ^ 16), hexDigit (x / 2 ^ 12), hexDigit (x / 2 ^ 8),
   hexDigit (x / 2 ^ 4), hexDigit x]

/-- `hashlib.sha256(bytes).hexdigest()`. -/
def sha256Hex (msg : List Nat) : String :=
  let st := sha256Words msg
  String.mk (wordToHex8 st.a ++ wordToHex8 st.b ++ wordToHex8 st.c ++
             wordToHex8 st.d ++ wordToHex8 st.e ++ wordToHex8 st.f ++
             wordToHex8 st.g ++ wordToHex8 st.h)

/-- UTF-8 encoding of one code point (RFC 3629). -/
def utf8EncodeChar (c : Char) : List Nat :=
  let n := c.toNat
  if n < 0x80 then [n]
  else if n < 0x800 then [0xC0 + n / 64, 0x80 + n % 64]
  else if n < 0x10000 then [0xE0 + n / 4096, 0x80 + n / 64 % 64, 0x80 + n % 64]
  else [0xF0 + n / 262144, 0x80 + n / 4096 % 64, 0x80 + n / 64 % 64, 0x80 + n % 64]

/-- `s.encode("utf-8")` as a list of byte values. -/
def utf8Bytes (s : String) : List Nat := (s.data.map utf8EncodeChar).flatten

/-- `hashlib.sha256(s.encode("utf-8")).hexdigest()`. -/
def sha256HexOfString (s : String) : String := sha256Hex (utf8Bytes s)

/-! ## `generate_mail_fingerprint` (lines 110–125)

The function is called with `str` values by the driver, but the claim also
speaks about missing fields, so each argument is an `Option String` with
`none` for Python `None`. An f-string renders `None` as the text `None`;
only the body goes through `body[:500] if body else ""`. -/

/-- Python f-string rendering of a possibly-`None` string value. -/
def fStr : Option String → String
  | none => "None"
  | some s => s

/-- `body[:500] if body else ""`: `None` and the empty string are falsy;
otherwise the first 500 characters. -/
def bodyHead : Option String → String
  | none => ""
  | some b => if b = "" then "" else pyTake b 500

/-- `generate_mail_fingerprint(sender_email, subject, body, sent_at)`. -/
def generate_mail_fingerprint (sender_email subject body sent_at : Option String) :
    String :=
  sha256HexOfString
    (fStr sender_email ++ "|" ++ fStr subject ++ "|" ++ bodyHead body ++ "|" ++
     fStr sent_at)

/-- Modelled from the claim's words, for comparison with the source's
function: the digest of `sender_email|subject|body[:500]|sent_at` where a
missing field is treated as the empty string. -/
def fingerprintClaimed (sender_email subject body sent_at : Option String) :
    String :=
  sha256HexOfString
    (sender_email.getD "" ++ "|" ++ subject.getD "" ++ "|" ++
     pyTake (body.getD "") 500 ++ "|" ++ sent_at.getD "")

/-! ## `decode_mime_header` (lines 128–163)

The parts yielded by `email.header.decode_header` and the Python codecs
are external collaborators, modelled as oracles: `strictDecode enc bytes`
is `bytes.decode(enc, errors="strict")` with `none` for a raised
`UnicodeDecodeError`/`LookupError`, and `lossyUtf8` is
`bytes.decode("utf-8", errors="ignore")`, which never raises. -/

/-- One element of `decode_header`'s result: raw bytes with an optional
declared charset, or an already-decoded string. -/
inductive HeaderPart where
  | bytes (data : List Nat) (charset : Option String)
  | text (s : String)

/-- The strict and lossy codec oracles used by the header decoder. -/
structure Codecs where
  strictDecode : String → List Nat → Option String
  lossyUtf8 : List Nat → String

/-- The fixed fallback encodings appended at line 145. -/
def headerFallbacks : List String :=
  ["utf-8", "iso-2022-jp", "shift_jis", "euc-jp", "cp932"]

/-- `encodings_to_try`: the declared encoding lowercased when truthy, then
the fixed fallbacks. -/
def candidateEncodings (charset : Option String) : List String :=
  (match charset with
   | some enc => if enc = "" then [] else [pyLower enc]
   | none => []) ++ headerFallbacks

/-- The for-loop over candidate encodings with strict decoding: the first
success wins, a failure moves to the next candidate. -/
def firstStrict (dec : String → List Nat → Option String) :
    List String → List Nat → Option String
  | [], _ => none
  | e :: rest, data =>
    match dec e data with
    | some s => some s
    | none => firstStrict dec rest data

/-- Decoding of one header part (the body of the for-loop at lines 137–160). -/
def decodePart (cod : Codecs) : HeaderPart → String
  | .text s => s
  | .bytes data charset =>
    match firstStrict cod.strictDecode (candidateEncodings charset) data with
    | some s => s
    | none => cod.lossyUtf8 data

/-- `decode_mime_header(header_text)`; `split` models
`email.header.decode_header`. -/
def decode_mime_header (cod : Codecs) (split : String → List HeaderPart)
    (headerText : String) : String :=
  if headerText = "" then ""
  else ((split headerText).map (decodePart cod)).foldl (· ++ ·) ""

/-! ## Body decoding of a `text/plain` part (lines 223–241)

The decode of one part payload inside `fetch_recent_emails`. The first
attempt is `payload.decode(charset, errors="ignore")` with the declared
charset; `lossyDecode` models it, with `none` for a raised `LookupError`
(an unknown charset — with `errors="ignore"` a known codec never raises). -/

/-- Codec oracles for the body decode. -/
structure BodyCodecs where
  lossyDecode : String → List Nat → Option String
  strictDecode : String → List Nat → Option String
  lossyUtf8 : List Nat → String

/-- The fallback chain at line 231. -/
def plainFallbacks : List String :=
  ["utf-8", "iso-2022-jp", "shift_jis", "euc-jp", "cp932", "latin-1"]

/-- `part.get_content_charset() or "utf-8"`. -/
def effectiveCharset (declared : Option String) : String :=
  match declared with
  | some c => if c = "" then "utf-8" else c
  | none => "utf-8"

/-- The decode of one `text/plain` payload: declared charset with
`errors="ignore"` first; only when that raises does the strict fallback
chain run; if every strict attempt fails, lossy UTF-8. -/
def decodeTextPlainPart (cod : BodyCodecs) (declared : Option String)
    (payload : List Nat) : String :=
  match cod.lossyDecode (effectiveCharset declared) payload with
  | some s => s
  | none =>
    match firstStrict cod.strictDecode plainFallbacks payload with
    | some s => s
    | none => cod.lossyUtf8 payload

/-- Modelled from the claim's words, for comparison with the source's
decode: every candidate — the declared charset first, then the fixed
chain — is tried as a strict decode in order, the first strict success is
accepted, and only if all fail is the payload decoded as UTF-8 with
invalid bytes discarded. -/
def rankedStrictBodyDecode (strict : String → List Nat → Option String)
    (lossyU : List Nat → String) (declared : Option String)
    (payload : List Nat) : String :=
  match firstStrict strict (declared.toList ++ plainFallbacks) payload with
  | some s => s
  | none => lossyU payload

/-! ## Attachment assembly in `fetch_recent_emails` (lines 303–348) -/

/-- One non-container MIME part as the attachment loop sees it:
`get_filename()`, `get_content_type()` (lowercased by the email library)
and `get_payload(decode=True)` (`none` for Python `None`). -/
structure MailPart where
  isMultipartContainer : Bool
  filename : Option String
  contentType : String
  payload : Option (List Nat)

/-- An element of the assembled `attachments` list. -/
structure Attachment where
  filename : String
  data : Option (List Nat)
  size : Nat
  mime_type : String
  is_garbled : Bool

/-- The Unicode replacement character. -/
def replacementChar : Char := Char.ofNat 0xFFFD

/-- `decoded_filename.count("�")` — occurrences of the replacement
character. -/
def countReplacement (s : String) : Nat :=
  s.data.countP (fun c => c == replacementChar)

/-- The garbled test at line 310: strictly more than 3 replacement
characters. -/
def isGarbledName (fn : String) : Bool := countReplacement fn > 3

/-- Extension selection for a garbled filename (lines 313–321): the
default `.xlsx` is replaced only when the content type mentions `sheet`
or `excel`. -/
def spreadsheetExt (contentType : String) : String :=
  if pyContains contentType "sheet" || pyContains contentType "excel" then
    if pyContains contentType "officedocument" then ".xlsx"
    else if pyContains contentType "macroEnabled" then ".xlsm"
    else ".xls"
  else ".xlsx"

/-- The synthesized temporary filename for a garbled attachment
(`ts` is `datetime.now().strftime("%Y%m%d_%H%M%S")`). -/
def tempFilename (contentType ts : String) : String :=
  "temp_" ++ ts ++ spreadsheetExt contentType

/-- Modelled from the claim's words, for comparison with the source's
extension selection: officedocument gives `.xlsx`, macro-enabled `.xlsm`,
anything else `.xls`. -/
def claimedMimeExt (contentType : String) : String :=
  if pyContains contentType "officedocument" then ".xlsx"
  else if pyContains contentType "macroEnabled" then ".xlsm"
  else ".xls"

/-- `decoded_filename.lower().endswith((".xlsx", ".xls", ".xlsm"))`. -/
def isSpreadsheetName (fn : String) : Bool :=
  pyEndsWith (pyLower fn) ".xlsx" || pyEndsWith (pyLower fn) ".xls" ||
    pyEndsWith (pyLower fn) ".xlsm"

/-- The MIME-type default substitution at lines 330–337. -/
def defaultMime (fn mimeType : String) : String :=
  if mimeType = "" || mimeType = "application/octet-stream" then
    if pyEndsWith (pyLower fn) ".xlsx" then
      "application/vnd.openxmlformats-officedocument.spreadsheetml.sheet"
    else if pyEndsWith (pyLower fn) ".xlsm" then
      "application/vnd.ms-excel.sheet.macroEnabled.12"
    else if pyEndsWith (pyLower fn) ".xls" then
      "application/vnd.ms-excel"
    else mimeType
  else mimeType

/-- The attachment loop (lines 303–348): container parts are skipped, a
falsy filename is skipped, the decoded filename of a garbled part is
replaced by the temporary name, and only names ending in a spreadsheet
extension are kept. -/
def buildAttachment (cod : Codecs) (split : String → List HeaderPart)
    (ts : String) (p : MailPart) : List Attachment :=
  if p.isMultipartContainer then []
  else
    match p.filename with
    | none => []
    | some fn =>
      if fn = "" then []
      else
        let decoded := decode_mime_header cod split fn
        let garbled := isGarbledName decoded
        let finalName := if garbled then tempFilename p.contentType ts else decoded
        if isSpreadsheetName finalName then
          [{ filename := finalName
             data := p.payload
             size := (p.payload.getD []).length
             mime_type := defaultMime finalName p.contentType
             is_garbled := garbled }]
        else []

def buildAttachments (cod : Codecs) (split : String → List HeaderPart)
    (ts : String) (parts : List MailPart) : List Attachment :=
  parts.flatMap (buildAttachment cod split ts)

/-! ## Python values

The values `json.loads` hands to the classifier's post-processing. JSON
floats are not modelled: no claim exercises them. -/

/-- A Python value: `None`, `bool`, `int`, `str`, `list` or `dict` (the
dict as an association list, first key wins). -/
inductive PyVal where
  | pnull
  | pbool (b : Bool)
  | pint (n : Int)
  | pstr (s : String)
  | plist (xs : List PyVal)
  | pdict (kvs : List (String × PyVal))

/-- Python truthiness. -/
def pyTruthy : PyVal → Bool
  | .pnull => false
  | .pbool b => b
  | .pint n => n != 0
  | .pstr s => s != ""
  | .plist xs => !xs.isEmpty
  | .pdict kvs => !kvs.isEmpty

/-- Python `x == "s"` for a literal string: true only for an equal `str`. -/
def pyEqStr (v : PyVal) (s : String) : Bool :=
  match v with
  | .pstr t => t == s
  | _ => false

/-- `d.get(k)`: the first value stored under `k`, `None` when absent. -/
def pyGet (kvs : List (String × PyVal)) (k : String) : PyVal :=
  match kvs.find? (fun kv => kv.1 == k) with
  | some kv => kv.2
  | none => .pnull

/-- `d[k] = v`: replace the first binding of `k`, or append one. -/
def pySet : List (String × PyVal) → String → PyVal → List (String × PyVal)
  | [], k, v => [(k, v)]
  | (k', v') :: rest, k, v =>
    if k' == k then (k, v) :: rest else (k', v') :: pySet rest k v

/-- `d.get(k, "")` narrowed to text: the stored string, or the empty
string for an absent key, a stored `None`, or a non-string value (the
branch conditions of `main` only test truthiness, for which this agrees
on the exercised cases). -/
def pyGetStrD (kvs : List (String × PyVal)) (k : String) : String :=
  match pyGet kvs k with
  | .pstr s => s
  | _ => ""

/-- `str(x)` for the scalar values the coercion code applies it to.
Containers are rendered abbreviated: every use site only asks whether the
result parses as an integer, and a Python list/dict repr never does. -/
def pyStr : PyVal → String
  | .pstr s => s
  | .pint n => toString n
  | .pbool true => "True"
  | .pbool false => "False"
  | .pnull => "None"
  | .plist _ => "[..]"
  | .pdict _ => "<dict>"

/-- Digit-string value. -/
def digitsToNat (s : String) : Nat :=
  s.data.foldl (fun acc c => acc * 10 + (c.toNat - 48)) 0

/-- Python `int(s)` on a string: optional whitespace and sign, then
digits; anything else raises (`none`). CPython's digit-underscore
grouping is not modelled — no claim exercises it. -/
def pyIntOfString (s : String) : Option Int :=
  let t := pyStrip s
  let core := if pyStartsWith t "-" || pyStartsWith t "+" then pyDrop t 1 else t
  if core.data.isEmpty then none
  else if core.data.all Char.isDigit then
    some
      (if pyStartsWith t "-" then -(digitsToNat core : Int)
       else (digitsToNat core : Int))
  else none

/-- Python `int(x)` on a value: ints and bools cast, strings parse,
everything else raises (`none`). -/
def pyIntCast : PyVal → Option Int
  | .pint n => some n
  | .pbool b => some (if b then 1 else 0)
  | .pstr s => pyIntOfString s
  | _ => none

/-- `int(str(v).replace(",", ""))` with `except: 0`. -/
def commaStripInt (v : PyVal) : Int :=
  (pyIntOfString (pyReplace (pyStr v) "," "")).getD 0

/-- `int(v)` with `except: 0`. -/
def directInt (v : PyVal) : Int :=
  (pyIntCast v).getD 0

/-! ## `classify_and_extract_with_gemini` (lines 430–509)

The Gemini call, the code-fence stripping and `json.loads` are external
steps whose combined outcome per (model, attempt) the environment
supplies; the post-processing, the numeric coercions and the
retry/fallback control flow are translated from the source. -/

/-- The outcome of one `generate_content` + parse attempt: a parsed value,
a `json.JSONDecodeError`, or any other exception carrying its `str(e)`
text. -/
inductive ApiOutcome where
  | parsed (v : PyVal)
  | jsonError
  | raised (e : String)

/-- The rate-limit test at line 500: `"429" in str(e) or "quota" in
str(e).lower()`. -/
def isRateLimitText (e : String) : Bool :=
  pyContains e "429" || pyContains (pyLower e) "quota"

/-- An observable event of the classifier: an attempt on a model, or a
`time.sleep(secs)`. -/
inductive ClsEvent where
  | attempt (model : String) (idx : Nat)
  | sleep (secs : Nat)
deriving Repr, DecidableEq

/-- The numeric-coercion block (lines 463–487): `price` for `project`
(comma-stripped), `monthlyRate` (comma-stripped), `yearsOfExperience` and
`age` (direct `int` cast) for `engineer`; each only when truthy, with 0 on
a failed cast. -/
def coerceNumericFields (kvs : List (String × PyVal)) : List (String × PyVal) :=
  if pyEqStr (pyGet kvs "type") "project" then
    if pyTruthy (pyGet kvs "price") then
      pySet kvs "price" (.pint (commaStripInt (pyGet kvs "price")))
    else kvs
  else if pyEqStr (pyGet kvs "type") "engineer" then
    let k1 :=
      if pyTruthy (pyGet kvs "monthlyRate") then
        pySet kvs "monthlyRate" (.pint (commaStripInt (pyGet kvs "monthlyRate")))
      else kvs
    let k2 :=
      if pyTruthy (pyGet k1 "yearsOfExperience") then
        pySet k1 "yearsOfExperience" (.pint (directInt (pyGet k1 "yearsOfExperience")))
      else k1
    if pyTruthy (pyGet k2 "age") then
      pySet k2 "age" (.pint (directInt (pyGet k2 "age")))
    else k2
  else kvs

/-- What one parsed value leads to: a returned result, a `continue` (the
empty-array branch at line 460), or a `break` out of the attempt loop (a
non-dict value makes `extracted.get` raise, caught as a generic error). -/
inductive AttemptResult where
  | success (v : PyVal)
  | retryNoSleep
  | abandonModel

/-- Post-processing of a parsed value (lines 454–492): unwrap a non-empty
array to its first element, treat an empty array as a retried attempt,
coerce numeric fields and attach `mainText`. -/
def processParsed (emailBody : String) : PyVal → AttemptResult
  | .plist [] => .retryNoSleep
  | .plist (x :: _) =>
    match x with
    | .pdict kvs =>
      .success (.pdict (pySet (coerceNumericFields kvs) "mainText" (.pstr emailBody)))
    | _ => .abandonModel
  | .pdict kvs =>
    .success (.pdict (pySet (coerceNumericFields kvs) "mainText" (.pstr emailBody)))
  | _ => .abandonModel

def base_delay : Nat := 5

def max_retries : Nat := 3

/-- The attempt loop for one model (`for attempt in range(max_retries)`),
driven by the remaining attempt count and the current attempt index;
returns the result and the event log. -/
def runModelAttempts (env : String → Nat → ApiOutcome) (emailBody modelName : String) :
    Nat → Nat → Option PyVal × List ClsEvent
  | 0, _ => (none, [])
  | remaining + 1, idx =>
    let ev := ClsEvent.attempt modelName idx
    match env modelName idx with
    | .parsed v =>
      match processParsed emailBody v with
      | .success r => (some r, [ev])
      | .retryNoSleep =>
        let (r, log) := runModelAttempts env emailBody modelName remaining (idx + 1)
        (r, ev :: log)
      | .abandonModel => (none, [ev])
    | .jsonError => (none, [ev])
    | .raised e =>
      if isRateLimitText e then
        let (r, log) := runModelAttempts env emailBody modelName remaining (idx + 1)
        (r, ev :: ClsEvent.sleep (base_delay * 2 ^ idx) :: log)
      else (none, [ev])

/-- The fallback loop over candidate model names. -/
def runModels (env : String → Nat → ApiOutcome) (emailBody : String) :
    List String → Option PyVal × List ClsEvent
  | [] => (none, [])
  | m :: rest =>
    match runModelAttempts env emailBody m max_retries 0 with
    | (some r, log) => (some r, log)
    | (none, log) =>
      let (r, log') := runModels env emailBody rest
      (r, log ++ log')

/-- The candidate model list at line 429. -/
def model_names : List String := ["models/gemini-2.0-flash"]

/-- `classify_and_extract_with_gemini(email_body, email_subject)`: the
subject only feeds the prompt, which the environment already accounts
for. -/
def classify_and_extract_with_gemini (env : String → Nat → ApiOutcome)
    (emailBody : String) : Option PyVal × List ClsEvent :=
  runModels env emailBody model_names

/-! ## `fingerprint_exists` (lines 632–651) and table identifiers -/

def GCP_PROJECT_ID : String := "gen-lang-client-0092830518"

def BIGQUERY_DATASET : String := "gmailData"

def BIGQUERY_TABLE_ENGINEERS : String := "EngineerData"

def BIGQUERY_TABLE_PROJECTS : String := "ProjectData"

def engineerTableId : String :=
  GCP_PROJECT_ID ++ "." ++ BIGQUERY_DATASET ++ "." ++ BIGQUERY_TABLE_ENGINEERS

def projectTableId : String :=
  GCP_PROJECT_ID ++ "." ++ BIGQUERY_DATASET ++ "." ++ BIGQUERY_TABLE_PROJECTS

/-- `fingerprint_exists(client, table_id, fingerprint)`: `query table_id
fingerprint` models running the parameterized limit-1 lookup and reading
`result.total_rows`, with `none` for any raised exception. The function
returns whether at least one row matched, and `false` on error. -/
def fingerprint_exists (query : String → String → Option Nat)
    (table_id fingerprint : String) : Bool :=
  match query table_id fingerprint with
  | some totalRows => decide (0 < totalRows)
  | none => false

/-! ## `convert_to_bigquery_format` (lines 510–558) -/

/-- `d.get(k, dflt)`. -/
def pyGetD (kvs : List (String × PyVal)) (k : String) (dflt : PyVal) : PyVal :=
  match kvs.find? (fun kv => kv.1 == k) with
  | some kv => kv.2
  | none => dflt

/-- `convert_to_bigquery_format(extracted_data, email_subject, fingerprint,
sent_at, file_url, excel_skills)`; `now` is the `datetime.now(timezone.utc)`
read for `extracted_at`. -/
def convert_to_bigquery_format (extractedData : List (String × PyVal))
    (email_subject fingerprint sent_at file_url : String)
    (excel_skills : Option (List PyVal)) (now : String) :
    Option (List (String × PyVal)) :=
  if pyEqStr (pyGet extractedData "type") "engineer" then
    let base : List (String × PyVal) :=
      [("fingerprint", .pstr fingerprint),
       ("sent_at", .pstr sent_at),
       ("engineer_name", pyGetD extractedData "engineerName" (.pstr "")),
       ("main_skills", pyGetD extractedData "mainSkills" (.pstr "")),
       ("years_of_experience", pyGetD extractedData "yearsOfExperience" (.pint 0)),
       ("monthly_rate", pyGetD extractedData "monthlyRate" (.pint 0)),
       ("available_from", pyGetD extractedData "availableFrom" (.pstr "")),
       ("gender", pyGetD extractedData "gender" (.pstr "")),
       ("age", pyGetD extractedData "age" (.pint 0)),
       ("nearest_station", pyGetD extractedData "nearestStation" (.pstr "")),
       ("main_text", pyGetD extractedData "mainText" (.pstr "")),
       ("subject", .pstr email_subject),
       ("sender_name", pyGetD extractedData "senderName" (.pstr "")),
       ("sender_company", pyGetD extractedData "senderCompany" (.pstr "")),
       ("fileURL", .pstr file_url),
       ("extracted_at", .pstr now)]
    match excel_skills with
    | some sk => some (base ++ [("excel_skills", .plist sk)])
    | none => some base
  else if pyEqStr (pyGet extractedData "type") "project" then
    some
      [("fingerprint", .pstr fingerprint),
       ("sent_at", .pstr sent_at),
       ("project_name", .pstr email_subject),
       ("location", pyGetD extractedData "location" (.pstr "")),
       ("period", pyGetD extractedData "period" (.pstr "")),
       ("price", pyGetD extractedData "price" (.pint 0)),
       ("required_skills", pyGetD extractedData "requiredSkills" (.pstr "")),
       ("main_text", pyGetD extractedData "mainText" (.pstr "")),
       ("subject", .pstr email_subject),
       ("sender_name", pyGetD extractedData "senderName" (.pstr "")),
       ("sender_company", pyGetD extractedData "senderCompany" (.pstr "")),
       ("fileURL", .pstr file_url),
       ("extracted_at", .pstr now)]
  else none

/-! ## Garbled-filename recovery in `main` (lines 747–769) -/

/-- The parenthesis stripping applied to the engineer name. -/
def stripParens (s : String) : String :=
  pyStrip (pyReplace (pyReplace (pyReplace (pyReplace s "(" "") ")" "") "（" "") "）" "")

/-- The stripping applied to the nearest station: the station marker 駅
and the parentheses. -/
def stripStation (s : String) : String :=
  pyStrip
    (pyReplace (pyReplace (pyReplace (pyReplace (pyReplace s "駅" "") "(" "") ")" "") "（" "") "）" "")

/-- Extension re-inferred from the current filename, defaulting to
`.xlsx`. -/
def extFromFilename (fn : String) : String :=
  if pyEndsWith (pyLower fn) ".xlsm" then ".xlsm"
  else if pyEndsWith (pyLower fn) ".xls" then ".xls"
  else ".xlsx"

/-- The final upload filename of one attachment: a garbled name on an
engineer-classified message is rebuilt from the classifier's name and
station when those are truthy; otherwise the fetch-time filename stands. -/
def resolveFinalFilename (att : Attachment) (isEngineer : Bool)
    (engineerName nearestStation : String) : String :=
  if att.is_garbled && isEngineer then
    if engineerName != "" && nearestStation != "" then
      stripParens engineerName ++ "_" ++ stripStation nearestStation ++
        extFromFilename att.filename
    else if engineerName != "" then
      stripParens engineerName ++ extFromFilename att.filename
    else att.filename
  else att.filename

/-! ## The pipeline driver (`main`, lines 675–812)

One fetched message's trip through the per-message loop body. External
effects are oracles in `DriverEnv`; the observable calls are returned as
an event list. The loop's `except` handler around the duplicate check has
an empty body in the source, so a failure there falls through to
classification; `classify_and_extract_with_gemini` is modelled totally,
so its surrounding `except` arm is unreachable in the model. -/

structure RawMessage where
  email_id : String
  subject : String
  sender_name : String
  sender_email : String
  sent_at : String
  body : String
  attachments : List Attachment

structure DriverEnv where
  clientOk : Bool
  query : String → String → Option Nat
  gemini : String → Nat → ApiOutcome
  upload : String → Option String
  excelText : Option (List Nat) → Option String
  skillsOf : String → Option PyVal
  insertOk : Bool
  nowIso : String

/-- The run counters printed in the summary. -/
structure Counters where
  processed : Nat
  engineer : Nat
  project : Nat
  other : Nat
  skipped : Nat
deriving Repr, DecidableEq

def czero : Counters := ⟨0, 0, 0, 0, 0⟩

def addCounters (a b : Counters) : Counters :=
  ⟨a.processed + b.processed, a.engineer + b.engineer, a.project + b.project,
   a.other + b.other, a.skipped + b.skipped⟩

/-- An observable external call of the driver. -/
inductive DrvEvent where
  | classifierInvoked
  | uploadAttempt (filename : String)
  | insertAttempt (table : String)
deriving Repr, DecidableEq

/-- The attachment handling for one attachment (lines 741–792): resolve
the final filename, attempt the GCS upload, and for engineer messages
extract skills from the spreadsheet. `env.excelText` folds
`extract_excel_content`'s `None`/empty results into `none`; a truthy
non-list `excel_skills` value (which would raise in `extend`) is not
modelled — no claim exercises it. -/
def processAttachment (env : DriverEnv) (isEngineer : Bool)
    (engineerName nearestStation : String)
    (acc : List String × List PyVal × List DrvEvent) (att : Attachment) :
    List String × List PyVal × List DrvEvent :=
  let finalName := resolveFinalFilename att isEngineer engineerName nearestStation
  let urls :=
    match env.upload finalName with
    | some u => acc.1 ++ [u]
    | none => acc.1
  let skills :=
    if isEngineer then
      match env.excelText att.data with
      | some txt =>
        match env.skillsOf txt with
        | some (.pdict dk) =>
          if pyTruthy (pyGet dk "excel_skills") then
            match pyGet dk "excel_skills" with
            | .plist l => acc.2.1 ++ l
            | _ => acc.2.1
          else acc.2.1
        | _ => acc.2.1
      | none => acc.2.1
    else acc.2.1
  (urls, skills, acc.2.2 ++ [DrvEvent.uploadAttempt finalName])

/-- The fingerprint `main` computes for one fetched message (lines
705–710). -/
def messageFingerprint (msg : RawMessage) : String :=
  generate_mail_fingerprint (some msg.sender_email) (some msg.subject)
    (some msg.body) (some msg.sent_at)

/-- The message processing that follows a negative (or errored) duplicate
check (lines 722–812): classification, attachment handling, record
conversion and insertion. The leading `classifierInvoked` event is added
by `processEmail`. -/
def classifyAndPersist (env : DriverEnv) (msg : RawMessage) :
    Counters × List DrvEvent :=
  match (classify_and_extract_with_gemini env.gemini msg.body).1 with
  | none => (czero, [])
  | some ex =>
    if !pyTruthy ex then (czero, [])
    else
      let kvs := match ex with | .pdict kvs => kvs | _ => []
      if pyEqStr (pyGet kvs "type") "other" then
        ({ czero with other := 1 }, [])
      else
        let isEng := pyEqStr (pyGet kvs "type") "engineer"
        let (file_urls, excel_skills, upEvs) :=
          msg.attachments.foldl
            (processAttachment env isEng (pyGetStrD kvs "engineerName")
              (pyGetStrD kvs "nearestStation"))
            ([], [], [])
        let file_url_str := pyJoin ", " file_urls
        let bq := convert_to_bigquery_format kvs msg.subject
          (messageFingerprint msg) msg.sent_at file_url_str
          (if excel_skills.isEmpty then none else some excel_skills)
          env.nowIso
        match bq with
        | none => (czero, upEvs)
        | some _ =>
          let table := if isEng then engineerTableId else projectTableId
          let evs2 := upEvs ++ [DrvEvent.insertAttempt table]
          if env.insertOk then
            if isEng then ({ czero with processed := 1, engineer := 1 }, evs2)
            else ({ czero with processed := 1, project := 1 }, evs2)
          else (czero, evs2)

/-- The per-message loop body of `main` (lines 703–812). -/
def processEmail (env : DriverEnv) (msg : RawMessage) : Counters × List DrvEvent :=
  let fp := messageFingerprint msg
  let isDup := env.clientOk &&
    (fingerprint_exists env.query engineerTableId fp ||
     fingerprint_exists env.query projectTableId fp)
  if isDup then ({ czero with skipped := 1 }, [])
  else
    ((classifyAndPersist env msg).1,
     DrvEvent.classifierInvoked :: (classifyAndPersist env msg).2)

/-- The whole batch: the loop over fetched messages, accumulating
counters and events. -/
def processAll (env : DriverEnv) (msgs : List RawMessage) :
    Counters × List DrvEvent :=
  msgs.foldl
    (fun acc m =>
      let r := processEmail env m
      (addCounters acc.1 r.1, acc.2 ++ r.2))
    (czero, [])

/-! ## Concrete instances used by witnesses and counterexamples

`demoStrict` and `demoLossy` record CPython codec facts about the single
byte `0x80`: it is invalid under `errors="strict"` in utf-8, iso-2022-jp,
shift_jis, euc-jp and cp932; latin-1 maps every byte to the code point of
its value, so it decodes to U+0080; `b"\x80".decode("shift_jis",
"ignore")` drops the byte, giving the empty string, and so does a lossy
UTF-8 decode. Inputs the theorems never exercise are mapped to `none`. -/

def demoStrict : String → List Nat → Option String
  | "latin-1", [128] => some (String.mk [Char.ofNat 128])
  | _, _ => none

def demoLossy : String → List Nat → Option String
  | "shift_jis", [128] => some ""
  | _, _ => none

def demoLossyUtf8 : List Nat → String := fun _ => ""

def demoHeaderCodecs : Codecs := ⟨demoStrict, demoLossyUtf8⟩

def demoBodyCodecs : BodyCodecs := ⟨demoLossy, demoStrict, demoLossyUtf8⟩

/-- A `decode_header` oracle for an unencoded ASCII header: one string
part, the header itself. -/
def idSplit : String → List HeaderPart := fun s => [HeaderPart.text s]

/-- A classifier environment that is rate-limited on every attempt. -/
def rateLimitEnv : String → Nat → ApiOutcome :=
  fun _ _ => ApiOutcome.raised "429 Resource has been exhausted"

/-- A classifier environment whose first attempt parses to an empty JSON
array and whose later attempts parse to an `other` object. -/
def emptyThenOtherEnv : String → Nat → ApiOutcome := fun _ i =>
  if i = 0 then ApiOutcome.parsed (.plist [])
  else ApiOutcome.parsed (.pdict [("type", .pstr "other")])

/-- A driver environment whose existence queries always find one row. -/
def dupQueryEnv : DriverEnv where
  clientOk := true
  query := fun _ _ => some 1
  gemini := fun _ _ => ApiOutcome.jsonError
  upload := fun _ => none
  excelText := fun _ => none
  skillsOf := fun _ => none
  insertOk := true
  nowIso := ""

/-- A driver environment whose existence queries always raise. -/
def errQueryEnv : DriverEnv :=
  { dupQueryEnv with query := fun _ _ => none }

def sampleMsg : RawMessage :=
  ⟨"1", "subj", "Alice", "alice@example.com", "2024-01-01T00:00:00+00:00",
   "body", []⟩

/-- The engineer dict of C7's counterexample: a comma-grouped
`yearsOfExperience`. -/
def c7dict : List (String × PyVal) :=
  [("type", .pstr "engineer"), ("yearsOfExperience", .pstr "1,000")]

/-- A garbled spreadsheet attachment as `fetch_recent_emails` would not
build it (the fetch stage would have renamed it), kept with a plain
filename to exercise the resolver in isolation. -/
def c8att : Attachment := ⟨"x.xlsx", none, 0, "", true⟩

/-- A non-spreadsheet, non-garbled part: dropped by the attachment loop. -/
def pdfPart : MailPart :=
  ⟨false, some "a.pdf", "application/pdf", some [1, 2, 3]⟩

/-! ## Helper lemmas -/

theorem bodyHead_some (b : String) : bodyHead (some b) = pyTake b 500 := by
  by_cases hb : b = ""
  · subst hb; rfl
  · simp [bodyHead, hb]

theorem sha256Hex_length (m : List Nat) : (sha256Hex m).length = 64 := rfl

/-- FIPS 180-4 test vector: the digest of the one-block message `abc`,
validating the SHA-256 model. -/
theorem sha256_vector_abc :
    sha256HexOfString "abc" =
      "ba7816bf8f01cfea414140de5dae2223b00361a396177a9cb410ff61f20015ad" := by
  decide

/-- FIPS 180-4 test vector: the digest of the two-block 56-byte message. -/
theorem sha256_vector_two_blocks :
    sha256HexOfString "abcdbcdecdefdefgefghfghighijhijkijkljklmklmnlmnomnopnopq" =
      "248d6a61d20638b8e5c026930c3e6039a33ce45964ff2167f6ecedd419db06c1" := by
  decide

theorem hexDigit_mem (n : Nat) : hexDigit n ∈ hexTable := by
  have h16 : hexTable.length = 16 := rfl
  have h : n % 16 < hexTable.length := by
    rw [h16]
    exact Nat.mod_lt _ (by omega)
  rw [hexDigit, List.getD_eq_getElem hexTable _ h]
  exact List.getElem_mem h

theorem mem_wordToHex8 {c : Char} {x : Nat} (h : c ∈ wordToHex8 x) :
    c ∈ hexTable := by
  simp only [wordToHex8, List.mem_cons, List.not_mem_nil, or_false] at h
  rcases h with h | h | h | h | h | h | h | h <;> (subst h; exact hexDigit_mem _)

theorem sha256Hex_chars (m : List Nat) : ∀ c ∈ (sha256Hex m).data, c ∈ hexTable := by
  intro c hc
  have : c ∈ wordToHex8 (sha256Words m).a ++ wordToHex8 (sha256Words m).b ++
      wordToHex8 (sha256Words m).c ++ wordToHex8 (sha256Words m).d ++
      wordToHex8 (sha256Words m).e ++ wordToHex8 (sha256Words m).f ++
      wordToHex8 (sha256Words m).g ++ wordToHex8 (sha256Words m).h := by
    simpa [sha256Hex, List.append_assoc] using hc
  simp only [List.mem_append] at this
  rcases this with ((((((h | h) | h) | h) | h) | h) | h) | h <;> exact mem_wordToHex8 h

theorem firstStrict_eq_none (dec : String → List Nat → Option String)
    (data : List Nat) :
    ∀ es, (∀ e ∈ es, dec e data = none) → firstStrict dec es data = none := by
  intro es
  induction es with
  | nil => intro _; rfl
  | cons e rest ih =>
    intro h
    have he := h e (by simp)
    simp [firstStrict, he]
    exact ih fun x hx => h x (by simp [hx])

theorem firstStrict_append_success (dec : String → List Nat → Option String)
    (data : List Nat) (s : String) :
    ∀ es1 e es2, (∀ x ∈ es1, dec x data = none) → dec e data = some s →
      firstStrict dec (es1 ++ e :: es2) data = some s := by
  intro es1
  induction es1 with
  | nil => intro e es2 _ he; simp [firstStrict, he]
  | cons x rest ih =>
    intro e es2 h he
    have hx := h x (by simp)
    simp only [List.cons_append, firstStrict, hx]
    exact ih e es2 (fun y hy => h y (by simp [hy])) he

/-! ## Claim theorems -/

/-- C1 (amended): `generate_mail_fingerprint` is a pure total function.
On string inputs it returns the 64-character lowercase-hexadecimal
SHA-256 digest of the UTF-8 encoding of
`sender_email|subject|body[:500]|sent_at`, and only the first 500
characters of the body contribute, so equal inputs yield equal
fingerprints. A missing (`None`) body is treated as the empty string;
a missing other field is rendered by string interpolation as the text
`None`, not as the empty string. -/
theorem fingerprint_amended (se su b sa : String) (b' : Option String) :
    generate_mail_fingerprint (some se) (some su) (some b) (some sa) =
      sha256HexOfString (se ++ "|" ++ su ++ "|" ++ pyTake b 500 ++ "|" ++ sa) ∧
    (generate_mail_fingerprint (some se) (some su) b' (some sa)).length = 64 ∧
    (∀ c ∈ (generate_mail_fingerprint (some se) (some su) b' (some sa)).data,
      c ∈ hexTable) ∧
    generate_mail_fingerprint (some se) (some su) none (some sa) =
      generate_mail_fingerprint (some se) (some su) (some "") (some sa) ∧
    (∀ b2 : String, pyTake b 500 = pyTake b2 500 →
      generate_mail_fingerprint (some se) (some su) (some b) (some sa) =
        generate_mail_fingerprint (some se) (some su) (some b2) (some sa)) ∧
    generate_mail_fingerprint none (some su) (some b) (some sa) =
      sha256HexOfString ("None" ++ "|" ++ su ++ "|" ++ pyTake b 500 ++ "|" ++ sa) := by
  refine ⟨?_, sha256Hex_length _, sha256Hex_chars _, rfl, ?_, ?_⟩
  · simp [generate_mail_fingerprint, fStr, bodyHead_some]
  · intro b2 h
    simp [generate_mail_fingerprint, fStr, bodyHead_some, h]
  · simp [generate_mail_fingerprint, fStr, bodyHead_some]

/-- C1 witness: the amended theorem applied at concrete strings gives the
digest of `a|s|b|t`. -/
theorem fingerprint_amended_witness :
    generate_mail_fingerprint (some "a") (some "s") (some "b") (some "t") =
      sha256HexOfString "a|s|b|t" := by
  have h := (fingerprint_amended "a" "s" "b" "t" (some "b")).1
  rw [h]
  rfl

/-- C1 counterexample: with a missing subject the source hashes the text
`a|None|b|c`, not the claim's `a||b|c` — a missing field other than the
body is not treated as the empty string. -/
theorem fingerprint_none_counterexample :
    generate_mail_fingerprint (some "a") none (some "b") (some "c") ≠
      fingerprintClaimed (some "a") none (some "b") (some "c") ∧
    generate_mail_fingerprint (some "a") none (some "b") (some "c") =
      sha256HexOfString "a|None|b|c" := by
  constructor
  · decide
  · rfl

/-- C2: a message whose fingerprint the existence check reports present
in either destination table is skipped before any classification: the
classifier is not invoked, nothing is uploaded or inserted, and only the
duplicate-skip counter is incremented, by exactly one. -/
theorem duplicate_skip_before_classification (env : DriverEnv) (msg : RawMessage)
    (hc : env.clientOk = true)
    (hd : (fingerprint_exists env.query engineerTableId (messageFingerprint msg) ||
           fingerprint_exists env.query projectTableId (messageFingerprint msg)) = true) :
    processEmail env msg = ({ czero with skipped := 1 }, []) ∧
    DrvEvent.classifierInvoked ∉ (processEmail env msg).2 ∧
    (∀ t, DrvEvent.insertAttempt t ∉ (processEmail env msg).2) ∧
    (∀ fn, DrvEvent.uploadAttempt fn ∉ (processEmail env msg).2) := by
  have h1 : processEmail env msg = ({ czero with skipped := 1 }, []) := by
    simp [processEmail, hc, hd]
  exact ⟨h1, by simp [h1], fun t => by simp [h1], fun fn => by simp [h1]⟩

/-- C2 witness: under an environment whose lookups always find a row, the
sample message is skipped with a duplicate count of one and no events. -/
theorem duplicate_skip_witness :
    processEmail dupQueryEnv sampleMsg = ({ czero with skipped := 1 }, []) :=
  (duplicate_skip_before_classification dupQueryEnv sampleMsg rfl rfl).1

/-- C3: `decode_mime_header` is total by construction and decodes each
byte part by trying the declared encoding (lowercased) first and then
exactly utf-8, iso-2022-jp, shift_jis, euc-jp, cp932, in that order,
accepting the first strict success; when every candidate fails it falls
back to lossy UTF-8; string parts and a falsy header pass through. -/
theorem decode_mime_header_candidate_order :
    (∀ cod split, decode_mime_header cod split "" = "") ∧
    (∀ cod s, decodePart cod (.text s) = s) ∧
    (∀ enc, enc ≠ "" →
      candidateEncodings (some enc) =
        pyLower enc :: ["utf-8", "iso-2022-jp", "shift_jis", "euc-jp", "cp932"]) ∧
    candidateEncodings none = ["utf-8", "iso-2022-jp", "shift_jis", "euc-jp", "cp932"] ∧
    (∀ cod data enc s, enc ≠ "" → cod.strictDecode (pyLower enc) data = some s →
      decodePart cod (.bytes data (some enc)) = s) ∧
    (∀ dec data s es1 e es2, (∀ x ∈ es1, dec x data = none) → dec e data = some s →
      firstStrict dec (es1 ++ e :: es2) data = some s) ∧
    (∀ cod data cs, (∀ e ∈ candidateEncodings cs, cod.strictDecode e data = none) →
      decodePart cod (.bytes data cs) = cod.lossyUtf8 data) := by
  refine ⟨fun cod split => rfl, fun cod s => rfl, ?_, rfl, ?_, ?_, ?_⟩
  · intro enc h
    simp [candidateEncodings, headerFallbacks, h]
  · intro cod data enc s h hdec
    simp [decodePart, candidateEncodings, headerFallbacks, h, firstStrict, hdec]
  · exact fun dec data s es1 e es2 h he =>
      firstStrict_append_success dec data s es1 e es2 h he
  · intro cod data cs h
    simp [decodePart, firstStrict_eq_none cod.strictDecode data _ h]

/-- C3 witness: the byte part `0x80` declared `LATIN-1` decodes by the
first candidate, the lowercased declared encoding, to U+0080. -/
theorem decode_mime_header_candidate_order_witness :
    decodePart demoHeaderCodecs (.bytes [128] (some "LATIN-1")) =
      String.mk [Char.ofNat 128] :=
  decode_mime_header_candidate_order.2.2.2.2.1 demoHeaderCodecs [128] "LATIN-1"
    (String.mk [Char.ofNat 128]) (by decide) (by decide)

/-- C4 counterexample: the payload `0x80` declared `shift_jis` is invalid
under the declared charset, yet the source decodes it lossily under that
very charset (`errors="ignore"`, giving the empty string), while the
claim's ranked strict algorithm would decode it strictly as latin-1 to
U+0080. -/
theorem body_decode_counterexample :
    decodeTextPlainPart demoBodyCodecs (some "shift_jis") [128] = "" ∧
    rankedStrictBodyDecode demoStrict demoLossyUtf8 (some "shift_jis") [128] =
      String.mk [Char.ofNat 128] ∧
    ("" : String) ≠ String.mk [Char.ofNat 128] := by
  exact ⟨rfl, rfl, by decide⟩

/-- C4 (amended): the declared charset (defaulted to utf-8 when absent or
falsy) is tried first with invalid bytes discarded, and that lossy result
is accepted whenever the charset is known — the strict decoders are never
consulted; only when the declared-charset decode raises (an unknown
charset) does the ranked strict chain utf-8, iso-2022-jp, shift_jis,
euc-jp, cp932, latin-1 run, first success accepted, with lossy UTF-8 as
the final fallback. -/
theorem body_decode_amended :
    (∀ cod declared payload s,
      cod.lossyDecode (effectiveCharset declared) payload = some s →
      decodeTextPlainPart cod declared payload = s) ∧
    (∀ cod cod' declared payload s,
      cod.lossyDecode = cod'.lossyDecode →
      cod.lossyDecode (effectiveCharset declared) payload = some s →
      decodeTextPlainPart cod declared payload =
        decodeTextPlainPart cod' declared payload) ∧
    (∀ cod declared payload,
      cod.lossyDecode (effectiveCharset declared) payload = none →
      decodeTextPlainPart cod declared payload =
        match firstStrict cod.strictDecode plainFallbacks payload with
        | some s => s
        | none => cod.lossyUtf8 payload) ∧
    effectiveCharset none = "utf-8" ∧
    effectiveCharset (some "") = "utf-8" ∧
    plainFallbacks = ["utf-8", "iso-2022-jp", "shift_jis", "euc-jp", "cp932", "latin-1"] := by
  refine ⟨?_, ?_, ?_, rfl, rfl, rfl⟩
  · intro cod declared payload s h
    simp [decodeTextPlainPart, h]
  · intro cod cod' declared payload s heq h
    have h' : cod'.lossyDecode (effectiveCharset declared) payload = some s := by
      rw [← heq]; exact h
    simp [decodeTextPlainPart, h, h']
  · intro cod declared payload h
    simp [decodeTextPlainPart, h]

/-- C4 witness: the amended theorem applied to the concrete codecs — the
known declared charset shift_jis wins with its lossy result, the empty
string. -/
theorem body_decode_amended_witness :
    decodeTextPlainPart demoBodyCodecs (some "shift_jis") [128] = "" :=
  body_decode_amended.1 demoBodyCodecs (some "shift_jis") [128] "" (by decide)

/-! Step lemmas for the classifier's attempt loop. -/

theorem runModelAttempts_rateLimit_step (env : String → Nat → ApiOutcome)
    (body m : String) (k idx : Nat) (e : String)
    (h : env m idx = ApiOutcome.raised e) (hd : isRateLimitText e = true) :
    runModelAttempts env body m (k + 1) idx =
      ((runModelAttempts env body m k (idx + 1)).1,
       ClsEvent.attempt m idx :: ClsEvent.sleep (base_delay * 2 ^ idx) ::
         (runModelAttempts env body m k (idx + 1)).2) := by
  rcases hx : runModelAttempts env body m k (idx + 1) with ⟨r, log⟩
  simp [runModelAttempts, h, hd, hx]

theorem runModelAttempts_jsonError_step (env : String → Nat → ApiOutcome)
    (body m : String) (k idx : Nat) (h : env m idx = ApiOutcome.jsonError) :
    runModelAttempts env body m (k + 1) idx = (none, [ClsEvent.attempt m idx]) := by
  simp [runModelAttempts, h]

theorem runModelAttempts_otherError_step (env : String → Nat → ApiOutcome)
    (body m : String) (k idx : Nat) (e : String)
    (h : env m idx = ApiOutcome.raised e) (hd : isRateLimitText e = false) :
    runModelAttempts env body m (k + 1) idx = (none, [ClsEvent.attempt m idx]) := by
  simp [runModelAttempts, h, hd]

theorem runModelAttempts_emptyList_step (env : String → Nat → ApiOutcome)
    (body m : String) (k idx : Nat)
    (h : env m idx = ApiOutcome.parsed (.plist [])) :
    runModelAttempts env body m (k + 1) idx =
      ((runModelAttempts env body m k (idx + 1)).1,
       ClsEvent.attempt m idx :: (runModelAttempts env body m k (idx + 1)).2) := by
  rcases hx : runModelAttempts env body m k (idx + 1) with ⟨r, log⟩
  simp [runModelAttempts, processParsed, h, hx]

theorem runModelAttempts_dict_step (env : String → Nat → ApiOutcome)
    (body m : String) (k idx : Nat) (kvs : List (String × PyVal))
    (h : env m idx = ApiOutcome.parsed (.pdict kvs)) :
    runModelAttempts env body m (k + 1) idx =
      (some (.pdict (pySet (coerceNumericFields kvs) "mainText" (.pstr body))),
       [ClsEvent.attempt m idx]) := by
  simp [runModelAttempts, processParsed, h]

theorem runModels_cons_none (env : String → Nat → ApiOutcome) (body m : String)
    (rest : List String) (log : List ClsEvent)
    (h : runModelAttempts env body m max_retries 0 = (none, log)) :
    runModels env body (m :: rest) =
      ((runModels env body rest).1, log ++ (runModels env body rest).2) := by
  rcases hres : runModels env body rest with ⟨r, log2⟩
  simp [runModels, h, hres]

theorem runModels_cons_some (env : String → Nat → ApiOutcome) (body m : String)
    (rest : List String) (r : PyVal) (log : List ClsEvent)
    (h : runModelAttempts env body m max_retries 0 = (some r, log)) :
    runModels env body (m :: rest) = (some r, log) := by
  simp [runModels, h]

theorem runModelAttempts_exhausted (env : String → Nat → ApiOutcome)
    (body m : String)
    (h : ∀ i, env m i = ApiOutcome.jsonError ∨ (∃ e, env m i = ApiOutcome.raised e) ∨
      env m i = ApiOutcome.parsed (.plist [])) :
    ∀ k idx, (runModelAttempts env body m k idx).1 = none := by
  intro k
  induction k with
  | zero => intro idx; rfl
  | succ n ih =>
    intro idx
    rcases h idx with h' | ⟨e, h'⟩ | h'
    · simp [runModelAttempts_jsonError_step env body m n idx h']
    · by_cases hd : isRateLimitText e = true
      · rw [runModelAttempts_rateLimit_step env body m n idx e h' hd]
        exact ih (idx + 1)
      · rw [runModelAttempts_otherError_step env body m n idx e h'
          (by revert hd; cases isRateLimitText e <;> simp)]
    · rw [runModelAttempts_emptyList_step env body m n idx h']
      exact ih (idx + 1)

/-- C5: a rate-limited failure (text matching `429` or `quota`) on every
attempt of a model causes exactly 3 attempts with sleeps of
`base_delay * 2 ^ attempt` — 5, 10, 20 seconds — before the remaining
candidate models run; a JSON-decode failure, like any other error,
abandons the model after a single attempt; and when every candidate model
is exhausted without success the classifier returns `none`. -/
theorem classify_retry_policy :
    (∀ env body m rest,
      (∀ i, i < 3 → ∃ e, env m i = ApiOutcome.raised e ∧ isRateLimitText e = true) →
      runModels env body (m :: rest) =
        ((runModels env body rest).1,
         [ClsEvent.attempt m 0, ClsEvent.sleep 5, ClsEvent.attempt m 1,
          ClsEvent.sleep 10, ClsEvent.attempt m 2, ClsEvent.sleep 20] ++
           (runModels env body rest).2)) ∧
    (∀ env body m rest, env m 0 = ApiOutcome.jsonError →
      runModels env body (m :: rest) =
        ((runModels env body rest).1,
         ClsEvent.attempt m 0 :: (runModels env body rest).2)) ∧
    (∀ env body m rest e, env m 0 = ApiOutcome.raised e → isRateLimitText e = false →
      runModels env body (m :: rest) =
        ((runModels env body rest).1,
         ClsEvent.attempt m 0 :: (runModels env body rest).2)) ∧
    (∀ env body models,
      (∀ m i, env m i = ApiOutcome.jsonError ∨ (∃ e, env m i = ApiOutcome.raised e) ∨
        env m i = ApiOutcome.parsed (.plist [])) →
      (runModels env body models).1 = none) := by
  refine ⟨?_, ?_, ?_, ?_⟩
  · intro env body m rest hE
    obtain ⟨e0, h0, d0⟩ := hE 0 (by omega)
    obtain ⟨e1, h1, d1⟩ := hE 1 (by omega)
    obtain ⟨e2, h2, d2⟩ := hE 2 (by omega)
    have s2 : runModelAttempts env body m 1 2 =
        (none, [ClsEvent.attempt m 2, ClsEvent.sleep 20]) := by
      have h := runModelAttempts_rateLimit_step env body m 0 2 e2 h2 d2
      simpa using h
    have s1 : runModelAttempts env body m 2 1 =
        (none, [ClsEvent.attempt m 1, ClsEvent.sleep 10, ClsEvent.attempt m 2,
          ClsEvent.sleep 20]) := by
      have h := runModelAttempts_rateLimit_step env body m 1 1 e1 h1 d1
      rw [s2] at h
      simpa using h
    have s0 : runModelAttempts env body m max_retries 0 =
        (none, [ClsEvent.attempt m 0, ClsEvent.sleep 5, ClsEvent.attempt m 1,
          ClsEvent.sleep 10, ClsEvent.attempt m 2, ClsEvent.sleep 20]) := by
      have h := runModelAttempts_rateLimit_step env body m 2 0 e0 h0 d0
      rw [s1] at h
      simpa using h
    exact runModels_cons_none env body m rest _ s0
  · intro env body m rest h
    exact runModels_cons_none env body m rest _
      (runModelAttempts_jsonError_step env body m 2 0 h)
  · intro env body m rest e h hd
    exact runModels_cons_none env body m rest _
      (runModelAttempts_otherError_step env body m 2 0 e h hd)
  · intro env body models hE
    induction models with
    | nil => rfl
    | cons m rest ih =>
      rcases hx : runModelAttempts env body m max_retries 0 with ⟨r, log⟩
      have hr : r = none := by
        have h := runModelAttempts_exhausted env body m (hE m) max_retries 0
        rw [hx] at h
        exact h
      subst hr
      rw [runModels_cons_none env body m rest log hx]
      exact ih

/-- C5 witness: the policy applied to an environment that is rate-limited
on every attempt, with the source's single candidate model. -/
theorem classify_retry_policy_witness :
    runModels rateLimitEnv "" ["models/gemini-2.0-flash"] =
      (none,
       [ClsEvent.attempt "models/gemini-2.0-flash" 0, ClsEvent.sleep 5,
        ClsEvent.attempt "models/gemini-2.0-flash" 1, ClsEvent.sleep 10,
        ClsEvent.attempt "models/gemini-2.0-flash" 2, ClsEvent.sleep 20]) := by
  have h := classify_retry_policy.1 rateLimitEnv "" "models/gemini-2.0-flash" []
    (fun i _ => ⟨"429 Resource has been exhausted", rfl, by decide⟩)
  simpa using h

/-- C6 counterexample: with one candidate model, an empty-array parse on
attempt 0 followed by a valid object on attempt 1 makes the classifier
re-attempt the same model and succeed there — it does not proceed
directly to the remaining candidate models. -/
theorem empty_array_retry_counterexample :
    runModels emptyThenOtherEnv "" ["m"] =
      (some (PyVal.pdict [("type", PyVal.pstr "other"), ("mainText", PyVal.pstr "")]),
       [ClsEvent.attempt "m" 0, ClsEvent.attempt "m" 1]) ∧
    (runModels emptyThenOtherEnv "" ["m"]).2 ≠ [ClsEvent.attempt "m" 0] :=
  ⟨rfl, by decide⟩

/-- C6 (amended): a non-empty parsed array is unwrapped to its first
element; an empty parsed array abandons only the current attempt, without
sleeping, and the same model is re-attempted up to the 3-attempt budget
before the remaining candidate models run; in particular an empty array
followed by a valid object on the same model yields that object from the
second attempt. -/
theorem classify_empty_array_amended :
    (∀ body kvs xs, processParsed body (.plist (.pdict kvs :: xs)) =
      processParsed body (.pdict kvs)) ∧
    (∀ env body m rest, (∀ i, i < 3 → env m i = ApiOutcome.parsed (.plist [])) →
      runModels env body (m :: rest) =
        ((runModels env body rest).1,
         [ClsEvent.attempt m 0, ClsEvent.attempt m 1, ClsEvent.attempt m 2] ++
           (runModels env body rest).2)) ∧
    (∀ env body m rest kvs, env m 0 = ApiOutcome.parsed (.plist []) →
      env m 1 = ApiOutcome.parsed (.pdict kvs) →
      runModels env body (m :: rest) =
        (some (.pdict (pySet (coerceNumericFields kvs) "mainText" (.pstr body))),
         [ClsEvent.attempt m 0, ClsEvent.attempt m 1])) := by
  refine ⟨fun body kvs xs => rfl, ?_, ?_⟩
  · intro env body m rest hE
    have s2 : runModelAttempts env body m 1 2 = (none, [ClsEvent.attempt m 2]) := by
      have h := runModelAttempts_emptyList_step env body m 0 2 (hE 2 (by omega))
      simpa using h
    have s1 : runModelAttempts env body m 2 1 =
        (none, [ClsEvent.attempt m 1, ClsEvent.attempt m 2]) := by
      have h := runModelAttempts_emptyList_step env body m 1 1 (hE 1 (by omega))
      rw [s2] at h
      simpa using h
    have s0 : runModelAttempts env body m max_retries 0 =
        (none, [ClsEvent.attempt m 0, ClsEvent.attempt m 1, ClsEvent.attempt m 2]) := by
      have h := runModelAttempts_emptyList_step env body m 2 0 (hE 0 (by omega))
      rw [s1] at h
      simpa using h
    exact runModels_cons_none env body m rest _ s0
  · intro env body m rest kvs h0 h1
    have s1 : runModelAttempts env body m 2 1 =
        (some (.pdict (pySet (coerceNumericFields kvs) "mainText" (.pstr body))),
         [ClsEvent.attempt m 1]) :=
      runModelAttempts_dict_step env body m 1 1 kvs h1
    have s0 : runModelAttempts env body m max_retries 0 =
        (some (.pdict (pySet (coerceNumericFields kvs) "mainText" (.pstr body))),
         [ClsEvent.attempt m 0, ClsEvent.attempt m 1]) := by
      have h := runModelAttempts_emptyList_step env body m 2 0 h0
      rw [s1] at h
      simpa using h
    exact runModels_cons_some env body m rest _ _ s0

/-- C6 witness: the amended behaviour at the concrete environment of the
counterexample. -/
theorem classify_empty_array_amended_witness :
    runModels emptyThenOtherEnv "" ["m"] =
      (some (PyVal.pdict [("type", PyVal.pstr "other"), ("mainText", PyVal.pstr "")]),
       [ClsEvent.attempt "m" 0, ClsEvent.attempt "m" 1]) := by
  have h := classify_empty_array_amended.2.2 emptyThenOtherEnv "" "m" []
    [("type", PyVal.pstr "other")] rfl rfl
  exact h.trans rfl

/-- C7 counterexample: an engineer `yearsOfExperience` of `"1,000"` is cast
directly with `int(...)` — no comma stripping — so the cast fails and 0 is
substituted, where the claim's strip-then-cast rule would give 1000. -/
theorem numeric_coercion_counterexample :
    coerceNumericFields c7dict =
      [("type", PyVal.pstr "engineer"), ("yearsOfExperience", PyVal.pint 0)] ∧
    (pyIntOfString (pyReplace "1,000" "," "")).getD 0 = 1000 ∧
    PyVal.pint 0 ≠ PyVal.pint 1000 :=
  ⟨rfl, rfl, by simp⟩

/-- C7 (amended): a truthy `price` (project) or `monthlyRate` (engineer)
is coerced by `int(str(v).replace(",", ""))` — commas stripped — while
truthy `yearsOfExperience` and `age` are cast directly with `int(v)`
without comma stripping; each cast substitutes 0 on failure, and a falsy
field is left untouched. `"80"` becomes 80 and `"800,000"` becomes
800000; no unit rescaling is performed. -/
theorem numeric_coercion_amended :
    (∀ s : String, s ≠ "" →
      coerceNumericFields [("type", .pstr "project"), ("price", .pstr s)] =
        [("type", .pstr "project"),
         ("price", .pint ((pyIntOfString (pyReplace s "," "")).getD 0))]) ∧
    (∀ s1 s2 s3 : String, s1 ≠ "" → s2 ≠ "" → s3 ≠ "" →
      coerceNumericFields
          [("type", .pstr "engineer"), ("monthlyRate", .pstr s1),
           ("yearsOfExperience", .pstr s2), ("age", .pstr s3)] =
        [("type", .pstr "engineer"),
         ("monthlyRate", .pint ((pyIntOfString (pyReplace s1 "," "")).getD 0)),
         ("yearsOfExperience", .pint ((pyIntOfString s2).getD 0)),
         ("age", .pint ((pyIntOfString s3).getD 0))]) ∧
    pyGet (coerceNumericFields [("type", .pstr "project"), ("price", .pstr "80")])
      "price" = .pint 80 ∧
    pyGet (coerceNumericFields
        [("type", .pstr "engineer"), ("monthlyRate", .pstr "800,000")])
      "monthlyRate" = .pint 800000 ∧
    coerceNumericFields [("type", .pstr "project"), ("price", .pstr "")] =
      [("type", .pstr "project"), ("price", .pstr "")] := by
  refine ⟨?_, ?_, rfl, rfl, rfl⟩
  · intro s h
    simp +decide [coerceNumericFields, pyGet, pyEqStr, pyTruthy, pySet,
      commaStripInt, pyStr, List.find?, h]
  · intro s1 s2 s3 h1 h2 h3
    simp +decide [coerceNumericFields, pyGet, pyEqStr, pyTruthy, pySet,
      commaStripInt, directInt, pyIntCast, pyStr, List.find?, h1, h2, h3]

/-- C7 witness: the amended coercions applied at `"80"` and comma-grouped
strings. -/
theorem numeric_coercion_amended_witness :
    coerceNumericFields [("type", .pstr "project"), ("price", .pstr "80")] =
      [("type", .pstr "project"), ("price", .pint 80)] := by
  have h := numeric_coercion_amended.1 "80" (by decide)
  exact h.trans rfl

/-- C8 counterexample: for a garbled attachment of MIME type
`application/pdf` the source synthesizes `temp_<ts>.xlsx` (the MIME map
applies only to types mentioning sheet/excel), while the claim's map
(officedocument → .xlsx, macro-enabled → .xlsm, else .xls) says `.xls`;
and the station marker 駅 is stripped only from the station component,
not from the engineer-name component. -/
theorem garbled_filename_counterexample :
    tempFilename "application/pdf" "20240101_000000" =
      "temp_20240101_000000.xlsx" ∧
    claimedMimeExt "application/pdf" = ".xls" ∧
    ("temp_20240101_000000.xlsx" : String) ≠ "temp_20240101_000000.xls" ∧
    resolveFinalFilename c8att true "駅A" "新宿駅" = "駅A_新宿.xlsx" ∧
    ("駅A_新宿.xlsx" : String) ≠ "A_新宿.xlsx" :=
  ⟨rfl, rfl, by decide, rfl, by decide⟩

/-- C8 (amended): a decoded filename is garbled iff it has more than 3
replacement characters; on an engineer-classified message a garbled
attachment with truthy name and station becomes
`stripParens(name)_stripStation(station)<ext>` — parentheses stripped
from both components, the 駅 marker from the station only — with the
extension re-inferred from the current filename (default `.xlsx`); with
only a name it becomes `stripParens(name)<ext>`; otherwise the fetch-time
name stands, which for a garbled part is `temp_<ts><ext>` with the
extension taken from the MIME type only when it mentions sheet or excel
(officedocument → `.xlsx`, the literal text `macroEnabled` → `.xlsm`,
else `.xls`) and `.xlsx` otherwise. -/
theorem garbled_filename_amended :
    (∀ fn, isGarbledName fn = true ↔ 3 < countReplacement fn) ∧
    (∀ att : Attachment, ∀ nm st, att.is_garbled = true → nm ≠ "" → st ≠ "" →
      resolveFinalFilename att true nm st =
        stripParens nm ++ "_" ++ stripStation st ++ extFromFilename att.filename) ∧
    (∀ att : Attachment, ∀ nm, att.is_garbled = true → nm ≠ "" →
      resolveFinalFilename att true nm "" =
        stripParens nm ++ extFromFilename att.filename) ∧
    (∀ att : Attachment, ∀ st, resolveFinalFilename att true "" st = att.filename) ∧
    (∀ att : Attachment, ∀ nm st, resolveFinalFilename att false nm st = att.filename) ∧
    (∀ ct ts, tempFilename ct ts = "temp_" ++ ts ++ spreadsheetExt ct) ∧
    (∀ ct, (pyContains ct "sheet" || pyContains ct "excel") = false →
      spreadsheetExt ct = ".xlsx") ∧
    (∀ ct, pyContains ct "officedocument" = true →
      (pyContains ct "sheet" || pyContains ct "excel") = true →
      spreadsheetExt ct = ".xlsx") ∧
    (∀ ct, (pyContains ct "sheet" || pyContains ct "excel") = true →
      pyContains ct "officedocument" = false → pyContains ct "macroEnabled" = true →
      spreadsheetExt ct = ".xlsm") ∧
    (∀ ct, (pyContains ct "sheet" || pyContains ct "excel") = true →
      pyContains ct "officedocument" = false → pyContains ct "macroEnabled" = false →
      spreadsheetExt ct = ".xls") ∧
    (∀ cod split ts ct payload fn, fn ≠ "" →
      isGarbledName (decode_mime_header cod split fn) = true →
      ∀ a ∈ buildAttachments cod split ts [⟨false, some fn, ct, payload⟩],
        a.filename = tempFilename ct ts) := by
  refine ⟨?_, ?_, ?_, ?_, ?_, fun ct ts => rfl, ?_, ?_, ?_, ?_, ?_⟩
  · intro fn
    simp [isGarbledName]
  · intro att nm st hg h1 h2
    simp [resolveFinalFilename, hg, h1, h2]
  · intro att nm hg h1
    simp [resolveFinalFilename, hg, h1]
  · intro att st
    simp [resolveFinalFilename]
  · intro att nm st
    simp [resolveFinalFilename]
  · intro ct h
    simp [spreadsheetExt, h]
  · intro ct h1 h2
    simp [spreadsheetExt, h1, h2]
  · intro ct h1 h2 h3
    simp [spreadsheetExt, h1, h2, h3]
  · intro ct h1 h2 h3
    simp [spreadsheetExt, h1, h2, h3]
  · intro cod split ts ct payload fn hfn hg a ha
    simp [buildAttachments, buildAttachment, hfn, hg] at ha
    rw [ha.2]

/-- C8 witness: the spec's own test case — name `A.K`, station
`Shinjuku`, original extension `.xlsx` — resolves to `A.K_Shinjuku.xlsx`. -/
theorem garbled_filename_amended_witness :
    resolveFinalFilename c8att true "A.K" "Shinjuku" = "A.K_Shinjuku.xlsx" := by
  have h := garbled_filename_amended.2.1 c8att "A.K" "Shinjuku" rfl (by decide)
    (by decide)
  exact h.trans rfl

theorem classifyAndPersist_skipped (env : DriverEnv) (msg : RawMessage) :
    (classifyAndPersist env msg).1.skipped = 0 := by
  unfold classifyAndPersist
  repeat' (first | rfl | split | dsimp only)

/-- C9: `fingerprint_exists` returns true iff the lookup succeeds with at
least one matching row, returns false on any query error, and in the
driver a message whose two existence queries both error is treated as not
a duplicate: the classifier is invoked and the duplicate-skip counter
stays zero. -/
theorem dedup_fails_open :
    (∀ query t fp rows, query t fp = some rows →
      (fingerprint_exists query t fp = true ↔ 0 < rows)) ∧
    (∀ query t fp, query t fp = none → fingerprint_exists query t fp = false) ∧
    (∀ env msg,
      env.query engineerTableId (messageFingerprint msg) = none →
      env.query projectTableId (messageFingerprint msg) = none →
      DrvEvent.classifierInvoked ∈ (processEmail env msg).2 ∧
      (processEmail env msg).1.skipped = 0) := by
  refine ⟨?_, ?_, ?_⟩
  · intro query t fp rows h
    simp [fingerprint_exists, h]
  · intro query t fp h
    simp [fingerprint_exists, h]
  · intro env msg h1 h2
    have hd1 : fingerprint_exists env.query engineerTableId (messageFingerprint msg)
        = false := by simp [fingerprint_exists, h1]
    have hd2 : fingerprint_exists env.query projectTableId (messageFingerprint msg)
        = false := by simp [fingerprint_exists, h2]
    have hp : processEmail env msg =
        ((classifyAndPersist env msg).1,
         DrvEvent.classifierInvoked :: (classifyAndPersist env msg).2) := by
      simp [processEmail, hd1, hd2]
    rw [hp]
    exact ⟨by simp, classifyAndPersist_skipped env msg⟩

/-- C9 witness: under an environment whose queries always raise, the
sample message reaches classification with a zero skip count. -/
theorem dedup_fails_open_witness :
    DrvEvent.classifierInvoked ∈ (processEmail errQueryEnv sampleMsg).2 ∧
    (processEmail errQueryEnv sampleMsg).1.skipped = 0 :=
  dedup_fails_open.2.2 errQueryEnv sampleMsg rfl rfl

/-- C10: every attachment assembled at fetch time has a filename ending,
case-insensitively, in .xlsx, .xls or .xlsm, and a part whose final
(decoded or synthesized) name fails that test contributes no attachment. -/
theorem attachments_spreadsheet_only :
    (∀ cod split ts parts,
      ((buildAttachments cod split ts parts).all
        fun a => isSpreadsheetName a.filename) = true) ∧
    (∀ cod split ts p fn, p.isMultipartContainer = false → p.filename = some fn →
      fn ≠ "" →
      isSpreadsheetName
        (if isGarbledName (decode_mime_header cod split fn) then
          tempFilename p.contentType ts
         else decode_mime_header cod split fn) = false →
      buildAttachments cod split ts [p] = []) := by
  constructor
  · intro cod split ts parts
    induction parts with
    | nil => rfl
    | cons p rest ih =>
      have hone : ((buildAttachment cod split ts p).all
          fun a => isSpreadsheetName a.filename) = true := by
        simp only [buildAttachment]
        split
        · rfl
        · split
          · rfl
          · split
            · rfl
            · split <;>
              · split
                · rename_i hsp
                  simp [hsp]
                · rfl
      calc ((buildAttachments cod split ts (p :: rest)).all
              fun a => isSpreadsheetName a.filename)
          = ((buildAttachment cod split ts p ++
              buildAttachments cod split ts rest).all
              fun a => isSpreadsheetName a.filename) := rfl
        _ = true := by
            rw [List.all_append, hone, ih]
            rfl
  · intro cod split ts p fn hmp hfn hne hfail
    cases p
    cases hfn
    simp only at hmp
    subst hmp
    simp [buildAttachments, buildAttachment, hne, hfail]

/-- C10 witness: a plain `a.pdf` part is dropped: it yields no
attachment. -/
theorem attachments_spreadsheet_only_witness :
    buildAttachments demoHeaderCodecs idSplit "ts" [pdfPart] = [] :=
  attachments_spreadsheet_only.2 demoHeaderCodecs idSplit "ts" pdfPart "a.pdf"
    rfl rfl (by decide) (by decide)

end EmailProc
